import Mathlib

/-!
# Verification of the `DataDownloader` concurrent download manager

A shallow embedding of the `DataDownloader` class from
`src/javascript/json-formatter.js` (the "Data Downloader" script):
`downloadFile` (per-URL attempt/retry/redirect/streaming logic) and
`downloadMultiple` (the admission-controlled worker pool), together with
proofs of the specified scheduling, retry, progress and cleanup properties.

The network and filesystem are modelled as an environment: each HTTP GET
issued by the code is answered by `env k` (the behaviour of the `k`-th
request issued during one `downloadFile` call), and all externally visible
actions are accumulated in an effect trace (`Eff`).  URL resolution
(`new URL(location, base).href`) is an external primitive and is passed in
as a function parameter.  JavaScript numbers are modelled as exact
rationals (`ℚ`); `parseInt(s, 10)` is modelled by `parseIntJS` with `none`
for `NaN`.
-/

namespace Downloader

/-- Model of `parseInt(s, 10)`: skip leading whitespace, optional sign,
then the longest digit run; `none` models `NaN` (no digits). -/
def parseIntJS (s : String) : Option Int :=
  let cs := s.data.dropWhile (fun c => c = ' ' ∨ c = '\t' ∨ c = '\n' ∨ c = '\r')
  let signAndRest : Int × List Char :=
    match cs with
    | '-' :: rest => (-1, rest)
    | '+' :: rest => (1, rest)
    | _ => (1, cs)
  let ds := signAndRest.2.takeWhile Char.isDigit
  if ds = [] then none
  else some (signAndRest.1 * ((ds.foldl (fun a c => a * 10 + (c.toNat - 48)) 0 : Nat) : Int))

/-- Model of `path.dirname`: the part before the last `/` (or `.` if
there is none). -/
def dirnameOf (p : String) : String :=
  let parts := p.splitOn "/"
  if parts.length ≤ 1 then "." else String.intercalate "/" (parts.dropLast)

/-- How the streamed body of a 200 response ends: normally (`finish` on the
file stream), with an error on the destination write stream, or with the
socket timeout firing mid-transfer. -/
inductive BodyEnd
  | finish
  | writeError (msg : String)
  | timedOut
deriving DecidableEq, Repr

/-- The network behaviour answering one issued GET: a response (status,
`Location` header, `content-length` header, body chunk sizes, how the body
transfer ends), a connection error (the request `error` event), or the
timeout firing before any response. -/
inductive NetBehavior
  | resp (status : Nat) (location : String) (contentLength : Option String)
      (chunks : List Nat) (ending : BodyEnd)
  | connError (msg : String)
  | timedOut
deriving DecidableEq, Repr

/-- The object passed to the `onProgress` callback. -/
structure ProgressEvent where
  url : String
  downloadedSize : Nat
  totalSize : Int
  progress : Int
deriving DecidableEq, Repr

/-- Externally visible actions of one `downloadFile` call, in order. -/
inductive Eff
  | httpGet (url : String) (attempt : Nat)
  | log (msg : String)
  | ensureDir (dir : String)
  | createFile (p : String)
  | write (p : String) (bytes : Nat)
  | progress (e : ProgressEvent)
  | closeStream
  | unlink (p : String)
  | destroyRequest
  | sleep (ms : Nat)
deriving DecidableEq, Repr

/-- The settlement of the promise returned by `downloadFile`. -/
inductive DLResult
  | success (url : String) (path : String) (size : Nat)
  | failed (msg : String)
deriving DecidableEq, Repr

/-- The exact progress percentage `(downloadedSize / totalSize) * 100`. -/
def pctQ (d : Nat) (t : Int) : ℚ := (d : ℚ) / (t : ℚ) * 100

/-- One `response.on('data')` step: add the chunk length to
`downloadedSize`; when a progress callback is installed and `totalSize` is
truthy, emit a throttled progress event exactly as the source does
(`progress - lastProgress >= 5 || progress === 100`).  State is
`(downloadedSize, lastProgress)`. -/
def dataStep (url : String) (totalSize : Option Int) (onProgress : Bool)
    (st : Nat × ℚ) (len : Nat) : (Nat × ℚ) × Option ProgressEvent :=
  let d := st.1 + len
  match totalSize with
  | some t =>
    if onProgress ∧ t ≠ 0 then
      let progress := pctQ d t
      if 5 ≤ progress - st.2 ∨ progress = 100 then
        ((d, progress), some ⟨url, d, t, round progress⟩)
      else ((d, st.2), none)
    else ((d, st.2), none)
  | none => ((d, st.2), none)

/-- Stream the body chunks into the destination file: per chunk the data
handler may emit a progress event and the pipe writes the chunk. Returns
the final `(downloadedSize, lastProgress)` state and the effect trace. -/
def streamChunks (url : String) (totalSize : Option Int) (onProgress : Bool)
    (path : String) : Nat × ℚ → List Nat → (Nat × ℚ) × List Eff
  | st, [] => (st, [])
  | st, len :: rest =>
    let step := dataStep url totalSize onProgress st len
    let here := (match step.2 with
      | some e => [Eff.progress e]
      | none => []) ++ [Eff.write path len]
    let tail := streamChunks url totalSize onProgress path step.1 rest
    (tail.1, here ++ tail.2)

/-- The progress events contained in an effect trace. -/
def progressEventsOf (effs : List Eff) : List ProgressEvent :=
  effs.filterMap (fun e => match e with
    | .progress ev => some ev
    | _ => none)

/-- The GETs (url, attempt number) issued in an effect trace. -/
def getsOf (effs : List Eff) : List (String × Nat) :=
  effs.filterMap (fun e => match e with
    | .httpGet u a => some (u, a)
    | _ => none)

/-- The backoff sleeps (ms) in an effect trace. -/
def sleepsOf (effs : List Eff) : List Nat :=
  effs.filterMap (fun e => match e with
    | .sleep ms => some ms
    | _ => none)

/-- Whether a file exists at `p` after replaying the filesystem effects of
a trace (created by `createWriteStream`, removed by `unlink`). -/
def fileExistsAfter (p : String) (effs : List Eff) : Bool :=
  effs.foldl (fun ex e => match e with
    | .createFile q => if q = p then true else ex
    | .unlink q => if q = p then false else ex
    | _ => ex) false

/-- The retry log line `Retry ${attempt}/${retries} for ${url}`. -/
def retryMsg (attempt retries : Nat) (url : String) : String :=
  "Retry " ++ toString attempt ++ "/" ++ toString retries ++ " for " ++ url

/-- The timeout log line `Timeout - Retry ${attempt}/${retries} for ${url}`. -/
def timeoutMsg (attempt retries : Nat) (url : String) : String :=
  "Timeout - " ++ retryMsg attempt retries url

/-- The body of `attemptDownload(attempt)` in `downloadFile`, with the
network answered by `env` (indexed by how many GETs this call already
issued) and URL resolution by `resolveUrl location base`.  `fuel` bounds
the recursion depth (redirects do not bound it in the source, so the model
returns `none` for the result when fuel runs out, i.e. divergence).

Faithful to the source: a 301/302 response computes and logs the resolved
redirect URL but recurses with the *original* `url` and the same
`attempt`; a non-200 status rejects immediately; a 200 response ensures
the output directory, creates the write stream, streams the chunks, and
then finishes, errors (deleting the partial file), or times out; request
errors and timeouts retry with backoff `1000 * attempt` while
`attempt < retries`. -/
def downloadFileRun (resolveUrl : String → String → String)
    (env : Nat → NetBehavior) (retries : Nat) (url outputPath : String)
    (onProgress : Bool) : Nat → Nat → Nat → Option DLResult × List Eff
  | 0, _, _ => (none, [])
  | fuel + 1, callIdx, attempt =>
    match env callIdx with
    | .resp status location contentLength chunks ending =>
      if status = 301 ∨ status = 302 then
        let redirectUrl := resolveUrl location url
        let rest := downloadFileRun resolveUrl env retries url outputPath
          onProgress fuel (callIdx + 1) attempt
        (rest.1, Eff.httpGet url attempt ::
          Eff.log ("Redirecting to: " ++ redirectUrl) :: rest.2)
      else if status ≠ 200 then
        (some (.failed ("HTTP " ++ toString status)), [Eff.httpGet url attempt])
      else
        let totalSize := contentLength.bind parseIntJS
        let streamed := streamChunks url totalSize onProgress outputPath (0, 0) chunks
        let pre := [Eff.httpGet url attempt, Eff.ensureDir (dirnameOf outputPath),
          Eff.createFile outputPath]
        match ending with
        | .finish =>
          (some (.success url outputPath streamed.1.1),
            pre ++ streamed.2 ++ [Eff.closeStream])
        | .writeError msg =>
          (some (.failed msg), pre ++ streamed.2 ++ [Eff.unlink outputPath])
        | .timedOut =>
          if attempt < retries then
            let rest := downloadFileRun resolveUrl env retries url outputPath
              onProgress fuel (callIdx + 1) (attempt + 1)
            (rest.1, pre ++ streamed.2 ++
              [Eff.destroyRequest, Eff.log (timeoutMsg attempt retries url),
                Eff.sleep (1000 * attempt)] ++ rest.2)
          else
            (some (.failed "Request timeout"),
              pre ++ streamed.2 ++ [Eff.destroyRequest])
    | .connError msg =>
      if attempt < retries then
        let rest := downloadFileRun resolveUrl env retries url outputPath
          onProgress fuel (callIdx + 1) (attempt + 1)
        (rest.1, [Eff.httpGet url attempt, Eff.log (retryMsg attempt retries url),
          Eff.sleep (1000 * attempt)] ++ rest.2)
      else
        (some (.failed msg), [Eff.httpGet url attempt])
    | .timedOut =>
      if attempt < retries then
        let rest := downloadFileRun resolveUrl env retries url outputPath
          onProgress fuel (callIdx + 1) (attempt + 1)
        (rest.1, [Eff.httpGet url attempt, Eff.destroyRequest,
          Eff.log (timeoutMsg attempt retries url),
          Eff.sleep (1000 * attempt)] ++ rest.2)
      else
        (some (.failed "Request timeout"),
          [Eff.httpGet url attempt, Eff.destroyRequest])

/-- Entry point `downloadFile(url, outputPath, onProgress)`: run
`attemptDownload()` starting at attempt 1 with no GET yet issued. -/
def downloadFile (resolveUrl : String → String → String)
    (env : Nat → NetBehavior) (retries : Nat) (url outputPath : String)
    (onProgress : Bool) (fuel : Nat) : Option DLResult × List Eff :=
  downloadFileRun resolveUrl env retries url outputPath onProgress fuel 0 1

/-!
## The scheduler (`downloadMultiple`)

`downloadMultiple` keeps a FIFO queue of pending URLs and a set of active
download promises; while a slot is free and the queue is non-empty it
shifts the next URL and starts its download, then awaits
`Promise.race(activeDownloads)`.  Each settled promise removes itself from
the active set and pushes its result to `successful` or `failed`.

The settlement of each task's promise is abstracted by an oracle
`out : Nat → TaskOutcome` (by input position), and which active task
settles first at each suspension point by a pick oracle
`pick : Nat → Nat` (taken modulo the size of the active set).  Requests
carry their input index as ghost data so the aggregation contract can be
stated per input position.
-/

/-- The settlement of one task's promise: fulfilled with a byte count or
rejected with an error message. -/
inductive TaskOutcome
  | success (size : Nat)
  | failure (msg : String)
deriving DecidableEq, Repr

/-- State of the `downloadMultiple` loop: the pending FIFO queue, the
active set, and the two result sequences (each entry tagged with its
input index). -/
structure SchedState where
  pending : List (Nat × String)
  active : List (Nat × String)
  successful : List (Nat × String × Nat)
  failed : List (Nat × String × String)
deriving DecidableEq, Repr

/-- The inner `while (activeDownloads.size < this.concurrency &&
queue.length > 0)` admission loop on (pending, active). -/
def fillAux (c : Nat) : List (Nat × String) → List (Nat × String) →
    List (Nat × String) × List (Nat × String)
  | [], active => ([], active)
  | r :: rest, active =>
    if active.length < c then fillAux c rest (active ++ [r])
    else (r :: rest, active)

/-- Admit pending requests into free slots until the pool is full or the
queue is empty. -/
def fill (c : Nat) (st : SchedState) : SchedState :=
  let pa := fillAux c st.pending st.active
  { st with pending := pa.1, active := pa.2 }

/-- One task settles: it is removed from the active set and its result is
pushed onto `successful` or `failed` according to its outcome.  When the
active set is empty (`get?` misses) the state is unchanged — the outer
loop only calls this behind `activeDownloads.size > 0`. -/
def complete (out : Nat → TaskOutcome) (pick : Nat) (st : SchedState) :
    SchedState :=
  match st.active.get? (pick % st.active.length) with
  | none => st
  | some r =>
    let rest := st.active.eraseIdx (pick % st.active.length)
    match out r.1 with
    | .success s => { st with active := rest, successful := st.successful ++ [(r.1, r.2, s)] }
    | .failure m => { st with active := rest, failed := st.failed ++ [(r.1, r.2, m)] }

/-- The outer `while (queue.length > 0 || activeDownloads.size > 0)` loop:
fill free slots, then suspend until one active task settles.  One unit of
fuel is spent per loop iteration (each iteration settles exactly one
task, so `urls.length` fuel suffices). -/
def runLoop (c : Nat) (out : Nat → TaskOutcome) (pick : Nat → Nat) :
    Nat → Nat → SchedState → SchedState
  | 0, _, st => st
  | fuel + 1, k, st =>
    if st.pending = [] ∧ st.active = [] then st
    else runLoop c out pick fuel (k + 1) (complete out (pick k) (fill c st))

/-- The scheduler states at each suspension point (just after filling the
free slots, where the loop awaits `Promise.race`). -/
def runTrace (c : Nat) (out : Nat → TaskOutcome) (pick : Nat → Nat) :
    Nat → Nat → SchedState → List SchedState
  | 0, _, _ => []
  | fuel + 1, k, st =>
    if st.pending = [] ∧ st.active = [] then []
    else
      let st1 := fill c st
      st1 :: runTrace c out pick fuel (k + 1) (complete out (pick k) st1)

/-- The initial scheduler state for a list of URLs. -/
def initState (urls : List String) : SchedState :=
  ⟨urls.enum, [], [], []⟩

/-- Entry point `downloadMultiple(urls, outputDir)`: run the scheduling
loop to completion from the initial state. -/
def downloadMultiple (c : Nat) (out : Nat → TaskOutcome) (pick : Nat → Nat)
    (urls : List String) : SchedState :=
  runLoop c out pick urls.length 0 (initState urls)

/-- The input indices present in a scheduler state, over all four
collections. -/
def keysOf (st : SchedState) : List Nat :=
  st.pending.map Prod.fst ++ st.active.map Prod.fst ++
    st.successful.map (·.1) ++ st.failed.map (·.1)

/-- The filesystem fold used by `fileExistsAfter`. -/
def fsFold (p : String) (ex : Bool) (e : Eff) : Bool :=
  match e with
  | .createFile q => if q = p then true else ex
  | .unlink q => if q = p then false else ex
  | _ => ex

/-- The exact percentage carried by an emitted progress event. -/
def pctE (e : ProgressEvent) : ℚ := pctQ e.downloadedSize e.totalSize

/-- The filesystem effects (directory creation, file creation, writes,
deletions) in an effect trace. -/
def fsEffectsOf (effs : List Eff) : List Eff :=
  effs.filter (fun e => match e with
    | .ensureDir _ => true
    | .createFile _ => true
    | .write _ _ => true
    | .unlink _ => true
    | _ => false)

/-- Per-entry consistency of a scheduler state: every queued and active
request carries the URL at its input position, and every recorded result
carries its URL and agrees with the task's settlement. -/
def GoodState (urls : List String) (out : Nat → TaskOutcome) (st : SchedState) : Prop :=
  (∀ r ∈ st.pending, urls.get? r.1 = some r.2) ∧
  (∀ r ∈ st.active, urls.get? r.1 = some r.2) ∧
  (∀ e ∈ st.successful, urls.get? e.1 = some e.2.1 ∧ out e.1 = TaskOutcome.success e.2.2) ∧
  (∀ e ∈ st.failed, urls.get? e.1 = some e.2.1 ∧ out e.1 = TaskOutcome.failure e.2.2)

/-!  ### Concrete fixtures used by the closed theorems and witnesses  -/

/-- A sample URL resolver standing in for `new URL(location, base).href`:
resolves the one relative location used in the redirect scenario. -/
def resolveSample : String → String → String := fun loc base =>
  if loc = "/new" ∧ base = "http://example.com/old" then "http://example.com/new"
  else loc

/-- A server answering the first GET with `301 Location: /new` and every
later GET with `200` and an empty body. -/
def redirectEnv : Nat → NetBehavior := fun k =>
  if k = 0 then NetBehavior.resp 301 "/new" none [] BodyEnd.finish
  else NetBehavior.resp 200 "" none [] BodyEnd.finish

/-- A server whose first response streams 50 of 100 bytes and then the
socket timeout fires; subsequent attempts time out before responding. -/
def timeoutEnv : Nat → NetBehavior := fun k =>
  if k = 0 then NetBehavior.resp 200 "" (some "100") [50] BodyEnd.timedOut
  else NetBehavior.timedOut

/-- A server always answering HTTP 404. -/
def notFoundEnv : Nat → NetBehavior := fun _ =>
  NetBehavior.resp 404 "" none [] BodyEnd.finish

/-- A server always failing with a connection error. -/
def connErrorEnv : Nat → NetBehavior := fun _ =>
  NetBehavior.connError "ECONNREFUSED"

/-- A server failing with connection errors on the first two attempts and
succeeding with a 7-byte body on the third. -/
def flakyEnv : Nat → NetBehavior := fun k =>
  if k = 0 then NetBehavior.connError "ECONNRESET"
  else if k = 1 then NetBehavior.connError "ECONNRESET"
  else NetBehavior.resp 200 "" (some "7") [3, 4] BodyEnd.finish

/-- A server answering with a 10-byte body in three chunks and an accurate
`content-length`. -/
def chunkedEnv : Nat → NetBehavior := fun _ =>
  NetBehavior.resp 200 "" (some "10") [3, 3, 4] BodyEnd.finish

/-- A server answering 200 with a body but an unparseable `content-length`. -/
def noLengthEnv : Nat → NetBehavior := fun _ =>
  NetBehavior.resp 200 "" (some "abc") [3, 4] BodyEnd.finish

/-- A server whose first response streams 50 of 100 bytes and then the
destination write stream errors. -/
def writeErrorEnv : Nat → NetBehavior := fun k =>
  if k = 0 then NetBehavior.resp 200 "" (some "100") [50] (BodyEnd.writeError "ENOSPC")
  else NetBehavior.timedOut

/-- Sample settlement oracle for the scheduler: input 1 rejects, the rest
fulfil with 5 bytes. -/
def outW : Nat → TaskOutcome := fun i =>
  if i = 1 then TaskOutcome.failure "HTTP 404" else TaskOutcome.success 5

/-- Sample pick oracle: `Promise.race` always settles the oldest active
task first. -/
def pickW : Nat → Nat := fun _ => 0

/-- Sample input URL list. -/
def urlsW : List String := ["http://a/x", "http://a/y", "http://a/z"]

/-!  ### Lemmas about the streaming data handler  -/

lemma fileExistsAfter_eq_foldl (p : String) (effs : List Eff) :
    fileExistsAfter p effs = effs.foldl (fsFold p) false := by
  unfold fileExistsAfter fsFold
  rfl

lemma dataStep_fst_fst (url : String) (ts : Option Int) (oP : Bool)
    (st : Nat × ℚ) (len : Nat) : (dataStep url ts oP st len).1.1 = st.1 + len := by
  unfold dataStep
  cases ts with
  | none => rfl
  | some t =>
    by_cases h : oP ∧ t ≠ 0
    · simp only [if_pos h]
      split <;> rfl
    · simp only [if_neg h]

lemma dataStep_some_true (url : String) (t : Int) (ht : t ≠ 0)
    (st : Nat × ℚ) (len : Nat) :
    dataStep url (some t) true st len =
      if 5 ≤ pctQ (st.1 + len) t - st.2 ∨ pctQ (st.1 + len) t = 100 then
        ((st.1 + len, pctQ (st.1 + len) t),
          some ⟨url, st.1 + len, t, round (pctQ (st.1 + len) t)⟩)
      else ((st.1 + len, st.2), none) := by
  unfold dataStep
  simp [ht]

lemma streamChunks_size (url : String) (ts : Option Int) (oP : Bool) (path : String) :
    ∀ (chunks : List Nat) (st : Nat × ℚ),
      (streamChunks url ts oP path st chunks).1.1 = st.1 + chunks.sum := by
  intro chunks
  induction chunks with
  | nil => intro st; simp [streamChunks]
  | cons len rest ih =>
    intro st
    simp only [streamChunks]
    rw [ih, dataStep_fst_fst, List.sum_cons]
    ring

lemma streamChunks_effs_shape (url : String) (ts : Option Int) (oP : Bool)
    (path : String) : ∀ (chunks : List Nat) (st : Nat × ℚ),
      ∀ e ∈ (streamChunks url ts oP path st chunks).2,
        (∃ n, e = .write path n) ∨ (∃ ev, e = .progress ev) := by
  intro chunks
  induction chunks with
  | nil => intro st e he; simp [streamChunks] at he
  | cons len rest ih =>
    intro st e he
    simp only [streamChunks, List.mem_append] at he
    rcases he with he | he
    · rcases he with he | he
      · cases hstep : (dataStep url ts oP st len).2 with
        | none => rw [hstep] at he; simp at he
        | some ev =>
          rw [hstep] at he
          simp at he
          exact Or.inr ⟨ev, he⟩
      · simp at he
        exact Or.inl ⟨len, he⟩
    · exact ih _ e he

lemma foldl_fsFold_streamChunks (p url : String) (ts : Option Int) (oP : Bool)
    (path : String) (chunks : List Nat) (st : Nat × ℚ) (acc : Bool) :
    ((streamChunks url ts oP path st chunks).2).foldl (fsFold p) acc = acc := by
  induction chunks generalizing st acc with
  | nil => simp [streamChunks]
  | cons len rest ih =>
    simp only [streamChunks, List.foldl_append]
    rw [ih]
    cases hstep : (dataStep url ts oP st len).2 with
    | none => simp [fsFold]
    | some ev => simp [fsFold]

lemma progressEventsOf_append (l₁ l₂ : List Eff) :
    progressEventsOf (l₁ ++ l₂) = progressEventsOf l₁ ++ progressEventsOf l₂ :=
  List.filterMap_append l₁ l₂ _

lemma progressEventsOf_streamChunks_cons (url : String) (ts : Option Int)
    (oP : Bool) (path : String) (st : Nat × ℚ) (len : Nat) (rest : List Nat) :
    progressEventsOf (streamChunks url ts oP path st (len :: rest)).2 =
      (match (dataStep url ts oP st len).2 with
        | some ev => [ev]
        | none => []) ++
      progressEventsOf (streamChunks url ts oP path (dataStep url ts oP st len).1 rest).2 := by
  simp only [streamChunks, progressEventsOf_append]
  congr 1
  cases (dataStep url ts oP st len).2 with
  | none => simp [progressEventsOf]
  | some ev => simp [progressEventsOf]

/-- When the parsed `content-length` is missing, zero, or negative, the
data handler never fires the throttled progress branch: the emitted event
list stays empty and `lastProgress` stays `0`. -/
lemma streamChunks_no_events_of_nonpos (url : String) (ts : Option Int)
    (oP : Bool) (path : String)
    (hts : ts = none ∨ ∃ t, ts = some t ∧ t ≤ 0) :
    ∀ (chunks : List Nat) (d : Nat),
      progressEventsOf (streamChunks url ts oP path (d, 0) chunks).2 = [] ∧
      (streamChunks url ts oP path (d, 0) chunks).1.2 = 0 := by
  intro chunks
  induction chunks with
  | nil => intro d; simp [streamChunks, progressEventsOf]
  | cons len rest ih =>
    intro d
    have hstep : dataStep url ts oP (d, 0) len = ((d + len, 0), none) := by
      rcases hts with h | ⟨t, h, hle⟩
      · subst h; rfl
      · subst h
        rcases lt_or_eq_of_le hle with hlt | heq
        · unfold dataStep
          by_cases hoP : oP = true ∧ t ≠ 0
          · have hpct : pctQ (d + len) t ≤ 0 := by
              unfold pctQ
              apply mul_nonpos_iff.mpr
              refine Or.inr ⟨?_, by norm_num⟩
              rw [div_nonpos_iff]
              exact Or.inl ⟨by positivity, by exact_mod_cast hlt.le⟩
            have h5 : ¬ (5 ≤ pctQ (d + len) t - 0) := by
              intro hcon
              rw [sub_zero] at hcon
              linarith
            have h100 : ¬ (pctQ (d + len) t = 100) := by
              intro hcon
              rw [hcon] at hpct
              norm_num at hpct
            simp only [if_pos hoP, if_neg (not_or.mpr ⟨h5, h100⟩)]
          · simp only [if_neg hoP]
        · subst heq
          unfold dataStep
          simp
    have hta := ih (d + len)
    constructor
    · rw [progressEventsOf_streamChunks_cons, hstep]
      simpa using hta.1
    · simp only [streamChunks, hstep]
      exact hta.2

/-- When the total size is known, positive and accurate (the chunks sum to
it), the event emitted at the last chunk is always the 100% event, and it
is the last event emitted. -/
lemma streamChunks_last_event (url path : String) (tN : Nat) (htN : 0 < tN) :
    ∀ (chunks : List Nat) (d : Nat) (q : ℚ), chunks ≠ [] → d + chunks.sum = tN →
      (progressEventsOf
          (streamChunks url (some (tN : Int)) true path (d, q) chunks).2).getLast?
        = some ⟨url, tN, (tN : Int), 100⟩ := by
  have htZ : (tN : Int) ≠ 0 := by exact_mod_cast htN.ne'
  intro chunks
  induction chunks with
  | nil => intro d q h; exact absurd rfl h
  | cons len rest ih =>
    intro d q _ hsum
    cases rest with
    | nil =>
      have hdl : d + len = tN := by
        simp only [List.sum_cons, List.sum_nil, add_zero] at hsum
        omega
      have hpct : pctQ (d + len) ((tN : Nat) : Int) = 100 := by
        unfold pctQ
        rw [hdl]
        push_cast
        rw [div_self (by exact_mod_cast htN.ne'), one_mul]
      have hpct2 : pctQ tN ((tN : Nat) : Int) = 100 := by
        unfold pctQ
        push_cast
        rw [div_self (by exact_mod_cast htN.ne'), one_mul]
      have hround : round (pctQ tN ((tN : Nat) : Int)) = 100 := by
        rw [hpct2]
        have h1 : ((100 : Nat) : ℚ) = (100 : ℚ) := by norm_num
        have h2 := round_natCast (α := ℚ) 100
        rw [h1] at h2
        exact_mod_cast h2
      rw [progressEventsOf_streamChunks_cons,
        dataStep_some_true url _ htZ (d, q) len]
      simp only [if_pos (Or.inr hpct)]
      simp [streamChunks, progressEventsOf, hdl, hround]
    | cons len2 rest2 =>
      rw [progressEventsOf_streamChunks_cons]
      have hd' : (dataStep url (some (tN : Int)) true (d, q) len).1.1 = d + len :=
        dataStep_fst_fst _ _ _ _ _
      have hsum' : (dataStep url (some (tN : Int)) true (d, q) len).1.1 +
          (len2 :: rest2).sum = tN := by
        rw [hd']
        simp only [List.sum_cons] at hsum ⊢
        omega
      have ihr := ih (dataStep url (some (tN : Int)) true (d, q) len).1.1
        (dataStep url (some (tN : Int)) true (d, q) len).1.2 (by simp) hsum'
      have hpair : ((dataStep url (some (tN : Int)) true (d, q) len).1.1,
          (dataStep url (some (tN : Int)) true (d, q) len).1.2) =
          (dataStep url (some (tN : Int)) true (d, q) len).1 := rfl
      rw [hpair] at ihr
      have hne : progressEventsOf
          (streamChunks url (some (tN : Int)) true path
            (dataStep url (some (tN : Int)) true (d, q) len).1 (len2 :: rest2)).2 ≠ [] := by
        intro hcon
        rw [hcon] at ihr
        simp at ihr
      rw [List.getLast?_append_of_ne_nil _ hne]
      exact ihr

/-- Throttling: along the emitted event list, each event either advances
the exact percentage by at least 5 points over the previous emission (the
baseline before any emission being `lastProgress = q`) or is a 100%
event.  This is the `progress - lastProgress >= 5 || progress === 100`
guard of the data handler, propagated along the whole stream. -/
lemma streamChunks_chain (url path : String) (t : Int) (ht : t ≠ 0) :
    ∀ (chunks : List Nat) (d : Nat) (q : ℚ),
      List.Chain' (fun e1 e2 => 5 ≤ pctE e2 - pctE e1 ∨ pctE e2 = 100)
        (progressEventsOf (streamChunks url (some t) true path (d, q) chunks).2)
      ∧ (∀ e, (progressEventsOf
            (streamChunks url (some t) true path (d, q) chunks).2).head? = some e →
          5 ≤ pctE e - q ∨ pctE e = 100) := by
  intro chunks
  induction chunks with
  | nil => intro d q; simp [streamChunks, progressEventsOf]
  | cons len rest ih =>
    intro d q
    by_cases hcond : 5 ≤ pctQ (d + len) t - q ∨ pctQ (d + len) t = 100
    · have hstep : dataStep url (some t) true (d, q) len =
          ((d + len, pctQ (d + len) t),
            some ⟨url, d + len, t, round (pctQ (d + len) t)⟩) := by
        rw [dataStep_some_true url t ht (d, q) len]
        simp only [if_pos hcond]
      have ihr := ih (d + len) (pctQ (d + len) t)
      have hpctE : pctE (⟨url, d + len, t, round (pctQ (d + len) t)⟩ : ProgressEvent)
          = pctQ (d + len) t := rfl
      constructor
      · rw [progressEventsOf_streamChunks_cons, hstep]
        simp only [List.cons_append, List.nil_append]
        rw [List.chain'_cons']
        refine ⟨?_, ihr.1⟩
        intro y hy
        have hh := ihr.2 y (Option.mem_def.mp hy)
        rw [hpctE]
        exact hh
      · intro e he
        rw [progressEventsOf_streamChunks_cons, hstep] at he
        simp only [List.cons_append, List.nil_append, List.head?_cons,
          Option.some.injEq] at he
        subst he
        rw [hpctE]
        exact hcond
    · have hstep : dataStep url (some t) true (d, q) len = ((d + len, q), none) := by
        rw [dataStep_some_true url t ht (d, q) len]
        simp only [if_neg hcond]
      have ihr := ih (d + len) q
      constructor
      · rw [progressEventsOf_streamChunks_cons, hstep]
        simpa using ihr.1
      · intro e he
        rw [progressEventsOf_streamChunks_cons, hstep] at he
        simp only [List.nil_append] at he
        exact ihr.2 e he

/-!  ### Lemmas about the scheduler  -/

lemma fillAux_spec (c : Nat) :
    ∀ (p a : List (Nat × String)),
      ∃ k, fillAux c p a = (p.drop k, a ++ p.take k) := by
  intro p
  induction p with
  | nil => intro a; exact ⟨0, by simp [fillAux]⟩
  | cons r rest ih =>
    intro a
    by_cases h : a.length < c
    · obtain ⟨k, hk⟩ := ih (a ++ [r])
      refine ⟨k + 1, ?_⟩
      simp only [fillAux, if_pos h, hk, List.drop_succ_cons, List.take_succ_cons]
      simp
    · exact ⟨0, by simp [fillAux, if_neg h]⟩

lemma fillAux_active_le (c : Nat) :
    ∀ (p a : List (Nat × String)), a.length ≤ c →
      (fillAux c p a).2.length ≤ c := by
  intro p
  induction p with
  | nil => intro a ha; simpa [fillAux] using ha
  | cons r rest ih =>
    intro a ha
    by_cases h : a.length < c
    · simp only [fillAux, if_pos h]
      exact ih (a ++ [r]) (by simp; omega)
    · simpa [fillAux, if_neg h] using ha

lemma fillAux_full_of_pending (c : Nat) :
    ∀ (p a : List (Nat × String)), a.length ≤ c →
      (fillAux c p a).1 ≠ [] → (fillAux c p a).2.length = c := by
  intro p
  induction p with
  | nil => intro a _ h; simp [fillAux] at h
  | cons r rest ih =>
    intro a ha h
    by_cases hlt : a.length < c
    · simp only [fillAux, if_pos hlt] at h ⊢
      exact ih (a ++ [r]) (by simp; omega) h
    · simp only [fillAux, if_neg hlt]
      omega

lemma fillAux_count (c : Nat) :
    ∀ (p a : List (Nat × String)),
      (fillAux c p a).1.length + (fillAux c p a).2.length = p.length + a.length := by
  intro p
  induction p with
  | nil => intro a; simp [fillAux]
  | cons r rest ih =>
    intro a
    by_cases h : a.length < c
    · simp only [fillAux, if_pos h]
      have := ih (a ++ [r])
      simp at this ⊢
      omega
    · simp [fillAux, if_neg h]

lemma fillAux_snd_ne_nil (c : Nat) (hc : 1 ≤ c) :
    ∀ (p a : List (Nat × String)), p ≠ [] ∨ a ≠ [] →
      (fillAux c p a).2 ≠ [] := by
  intro p a hpa
  rcases hpa with hp | ha
  · cases a with
    | cons x xs =>
      obtain ⟨k, hk⟩ := fillAux_spec c p (x :: xs)
      rw [hk]
      simp
    | nil =>
      cases p with
      | nil => exact absurd rfl hp
      | cons r rest =>
        have hc0 : ([] : List (Nat × String)).length < c := by simpa using hc
        simp only [fillAux, if_pos hc0]
        obtain ⟨k', hk'⟩ := fillAux_spec c rest ([] ++ [r])
        rw [hk']
        simp
  · obtain ⟨k, hk⟩ := fillAux_spec c p a
    rw [hk]
    simp only [ne_eq, List.append_eq_nil]
    intro hcon
    exact ha hcon.1

lemma fill_pending (c : Nat) (st : SchedState) :
    (fill c st).pending = (fillAux c st.pending st.active).1 := rfl

lemma fill_active (c : Nat) (st : SchedState) :
    (fill c st).active = (fillAux c st.pending st.active).2 := rfl

lemma fill_successful (c : Nat) (st : SchedState) :
    (fill c st).successful = st.successful := rfl

lemma fill_failed (c : Nat) (st : SchedState) :
    (fill c st).failed = st.failed := rfl

/-- Removing the picked element and re-consing it is a permutation. -/
lemma get_cons_eraseIdx_perm :
    ∀ (l : List (Nat × String)) (i : Fin l.length),
      (l.get i :: l.eraseIdx i.1).Perm l := by
  intro l
  induction l with
  | nil => intro i; exact absurd i.2 (by simp)
  | cons x xs ih =>
    intro i
    cases i using Fin.cases with
    | zero => simp [List.eraseIdx]
    | succ j =>
      have hperm := ih j
      have h1 : ((x :: xs).get j.succ :: (x :: xs).eraseIdx j.succ.1)
          = xs.get j :: x :: xs.eraseIdx j.1 := rfl
      rw [h1]
      exact List.Perm.trans
        (List.Perm.swap x (xs.get j) (xs.eraseIdx j.1)) (hperm.cons x)

lemma goodState_init (urls : List String) (out : Nat → TaskOutcome) :
    GoodState urls out (initState urls) := by
  refine ⟨?_, by simp [initState], by simp [initState], by simp [initState]⟩
  intro r hr
  have := List.mem_enum_iff_get?.mp hr
  exact this

lemma goodState_fill (urls : List String) (out : Nat → TaskOutcome)
    (c : Nat) (st : SchedState) (hg : GoodState urls out st) :
    GoodState urls out (fill c st) := by
  obtain ⟨k, hk⟩ := fillAux_spec c st.pending st.active
  refine ⟨?_, ?_, ?_, ?_⟩
  · intro r hr
    rw [fill_pending, hk] at hr
    exact hg.1 r (List.mem_of_mem_drop hr)
  · intro r hr
    rw [fill_active, hk] at hr
    rcases List.mem_append.mp hr with h | h
    · exact hg.2.1 r h
    · exact hg.1 r (List.mem_of_mem_take h)
  · intro e he
    rw [fill_successful] at he
    exact hg.2.2.1 e he
  · intro e he
    rw [fill_failed] at he
    exact hg.2.2.2 e he

lemma goodState_complete (urls : List String) (out : Nat → TaskOutcome)
    (pk : Nat) (st : SchedState) (hg : GoodState urls out st) :
    GoodState urls out (complete out pk st) := by
  unfold complete
  cases hget : st.active.get? (pk % st.active.length) with
  | none => exact hg
  | some r =>
    have hrmem : r ∈ st.active := List.get?_mem hget
    have hrurl : urls.get? r.1 = some r.2 := hg.2.1 r hrmem
    cases hout : out r.1 with
    | success s =>
      dsimp only
      rw [hout]
      dsimp only
      refine ⟨hg.1, ?_, ?_, hg.2.2.2⟩
      · intro x hx
        exact hg.2.1 x (List.mem_of_mem_eraseIdx hx)
      · intro e he
        simp only [List.mem_append, List.mem_singleton] at he
        rcases he with he | he
        · exact hg.2.2.1 e he
        · subst he
          exact ⟨hrurl, hout⟩
    | failure m =>
      dsimp only
      rw [hout]
      dsimp only
      refine ⟨hg.1, ?_, hg.2.2.1, ?_⟩
      · intro x hx
        exact hg.2.1 x (List.mem_of_mem_eraseIdx hx)
      · intro e he
        simp only [List.mem_append, List.mem_singleton] at he
        rcases he with he | he
        · exact hg.2.2.2 e he
        · subst he
          exact ⟨hrurl, hout⟩

lemma keysOf_fill_perm (c : Nat) (st : SchedState) :
    (keysOf (fill c st)).Perm (keysOf st) := by
  obtain ⟨k, hk⟩ := fillAux_spec c st.pending st.active
  simp only [keysOf, fill_pending, fill_active, fill_successful, fill_failed, hk]
  rw [← Multiset.coe_eq_coe]
  have hsplit : st.pending.map Prod.fst =
      (st.pending.take k).map Prod.fst ++ (st.pending.drop k).map Prod.fst := by
    rw [← List.map_append, List.take_append_drop]
  simp only [List.map_append, ← Multiset.coe_add]
  rw [hsplit]
  simp only [← Multiset.coe_add]
  abel

lemma keysOf_complete_perm (out : Nat → TaskOutcome) (pk : Nat) (st : SchedState) :
    (keysOf (complete out pk st)).Perm (keysOf st) := by
  unfold complete
  cases hget : st.active.get? (pk % st.active.length) with
  | none => exact List.Perm.refl _
  | some r =>
    obtain ⟨hlt, hgetE⟩ := List.get?_eq_some.mp hget
    have hperm : (r :: st.active.eraseIdx (pk % st.active.length)).Perm st.active := by
      rw [← hgetE]
      exact get_cons_eraseIdx_perm st.active ⟨pk % st.active.length, hlt⟩
    have hmapped : (r.1 :: (st.active.eraseIdx (pk % st.active.length)).map Prod.fst).Perm
        (st.active.map Prod.fst) := by
      simpa using hperm.map Prod.fst
    have hA : (↑(st.active.map Prod.fst) : Multiset Nat)
        = {r.1} + ↑((st.active.eraseIdx (pk % st.active.length)).map Prod.fst) := by
      rw [Multiset.singleton_add, Multiset.cons_coe]
      exact (Multiset.coe_eq_coe.mpr hmapped).symm
    cases hout : out r.1 with
    | success s =>
      dsimp only
      rw [hout]
      dsimp only
      simp only [keysOf, List.map_append]
      rw [← Multiset.coe_eq_coe]
      simp only [← Multiset.coe_add]
      rw [hA]
      have h1 : (↑(([((r.1 : Nat), (r.2 : String), (s : Nat))]).map (·.1)) : Multiset Nat)
          = ({r.1} : Multiset Nat) := rfl
      rw [h1]
      abel
    | failure m =>
      dsimp only
      rw [hout]
      dsimp only
      simp only [keysOf, List.map_append]
      rw [← Multiset.coe_eq_coe]
      simp only [← Multiset.coe_add]
      rw [hA]
      have h1 : (↑(([((r.1 : Nat), (r.2 : String), (m : String))]).map (·.1)) : Multiset Nat)
          = ({r.1} : Multiset Nat) := rfl
      rw [h1]
      abel

lemma complete_active_length_le (out : Nat → TaskOutcome) (pk : Nat) (st : SchedState) :
    (complete out pk st).active.length ≤ st.active.length := by
  unfold complete
  cases hget : st.active.get? (pk % st.active.length) with
  | none => exact le_refl _
  | some r =>
    have hlen := List.length_eraseIdx st.active (pk % st.active.length)
    cases hout : out r.1 with
    | success s =>
      dsimp only
      rw [hout]
      dsimp only
      rw [hlen]
      split <;> omega
    | failure m =>
      dsimp only
      rw [hout]
      dsimp only
      rw [hlen]
      split <;> omega

lemma complete_tasks (out : Nat → TaskOutcome) (pk : Nat) (st : SchedState)
    (h : st.active ≠ []) :
    (complete out pk st).pending.length + (complete out pk st).active.length + 1
      = st.pending.length + st.active.length := by
  have hpos : 0 < st.active.length := List.length_pos.mpr h
  have hlt : pk % st.active.length < st.active.length := Nat.mod_lt _ hpos
  unfold complete
  rw [List.get?_eq_get hlt]
  have hlen := List.length_eraseIdx st.active (pk % st.active.length)
  rw [if_pos hlt] at hlen
  cases hout : out (st.active.get ⟨pk % st.active.length, hlt⟩).1 with
  | success s =>
    dsimp only
    rw [hout]
    dsimp only
    rw [hlen]
    omega
  | failure m =>
    dsimp only
    rw [hout]
    dsimp only
    rw [hlen]
    omega

lemma fill_tasks (c : Nat) (st : SchedState) :
    (fill c st).pending.length + (fill c st).active.length
      = st.pending.length + st.active.length := by
  rw [fill_pending, fill_active]
  exact fillAux_count c st.pending st.active

lemma fill_active_ne_nil (c : Nat) (hc : 1 ≤ c) (st : SchedState)
    (h : ¬ (st.pending = [] ∧ st.active = [])) : (fill c st).active ≠ [] := by
  rw [fill_active]
  exact fillAux_snd_ne_nil c hc st.pending st.active (not_and_or.mp h)

lemma runLoop_goodState (urls : List String) (c : Nat) (out : Nat → TaskOutcome)
    (pick : Nat → Nat) :
    ∀ (fuel k : Nat) (st : SchedState), GoodState urls out st →
      GoodState urls out (runLoop c out pick fuel k st) := by
  intro fuel
  induction fuel with
  | zero => intro k st hg; exact hg
  | succ fuel ih =>
    intro k st hg
    by_cases hdone : st.pending = [] ∧ st.active = []
    · simpa [runLoop, hdone] using hg
    · simp only [runLoop, if_neg hdone]
      exact ih (k + 1) _ (goodState_complete urls out _ _ (goodState_fill urls out c st hg))

lemma runLoop_keys_perm (c : Nat) (out : Nat → TaskOutcome) (pick : Nat → Nat) :
    ∀ (fuel k : Nat) (st : SchedState),
      (keysOf (runLoop c out pick fuel k st)).Perm (keysOf st) := by
  intro fuel
  induction fuel with
  | zero => intro k st; exact List.Perm.refl _
  | succ fuel ih =>
    intro k st
    by_cases hdone : st.pending = [] ∧ st.active = []
    · simp [runLoop, hdone]
    · simp only [runLoop, if_neg hdone]
      exact ((ih (k + 1) _).trans (keysOf_complete_perm out _ _)).trans
        (keysOf_fill_perm c st)

lemma runLoop_drain (c : Nat) (hc : 1 ≤ c) (out : Nat → TaskOutcome)
    (pick : Nat → Nat) :
    ∀ (fuel k : Nat) (st : SchedState),
      st.pending.length + st.active.length ≤ fuel →
      (runLoop c out pick fuel k st).pending = [] ∧
        (runLoop c out pick fuel k st).active = [] := by
  intro fuel
  induction fuel with
  | zero =>
    intro k st hle
    have hp : st.pending.length = 0 := by omega
    have ha : st.active.length = 0 := by omega
    exact ⟨List.length_eq_zero.mp hp, List.length_eq_zero.mp ha⟩
  | succ fuel ih =>
    intro k st hle
    by_cases hdone : st.pending = [] ∧ st.active = []
    · simpa [runLoop, hdone] using hdone
    · simp only [runLoop, if_neg hdone]
      apply ih
      have h1 := fill_tasks c st
      have h2 := complete_tasks out (pick k) (fill c st) (fill_active_ne_nil c hc st hdone)
      have h3 : 1 ≤ st.pending.length + st.active.length := by
        rcases not_and_or.mp hdone with h | h
        · have := List.length_pos.mpr h
          omega
        · have := List.length_pos.mpr h
          omega
      omega

lemma runTrace_bound (c : Nat) (out : Nat → TaskOutcome) (pick : Nat → Nat) :
    ∀ (fuel k : Nat) (st : SchedState), st.active.length ≤ c →
      ∀ s ∈ runTrace c out pick fuel k st,
        s.active.length ≤ c ∧ (s.pending ≠ [] → s.active.length = c) := by
  intro fuel
  induction fuel with
  | zero => intro k st _ s hs; simp [runTrace] at hs
  | succ fuel ih =>
    intro k st ha s hs
    by_cases hdone : st.pending = [] ∧ st.active = []
    · simp [runTrace, hdone] at hs
    · simp only [runTrace, if_neg hdone, List.mem_cons] at hs
      rcases hs with hs | hs
      · subst hs
        refine ⟨?_, ?_⟩
        · rw [fill_active]
          exact fillAux_active_le c st.pending st.active ha
        · intro hp
          rw [fill_active]
          rw [fill_pending] at hp
          exact fillAux_full_of_pending c st.pending st.active ha hp
      · apply ih (k + 1) _ _ s hs
        exact le_trans (complete_active_length_le out (pick k) (fill c st))
          (by rw [fill_active]; exact fillAux_active_le c st.pending st.active ha)

lemma downloadMultiple_drained (c : Nat) (hc : 1 ≤ c) (out : Nat → TaskOutcome)
    (pick : Nat → Nat) (urls : List String) :
    (downloadMultiple c out pick urls).pending = [] ∧
      (downloadMultiple c out pick urls).active = [] := by
  unfold downloadMultiple
  apply runLoop_drain c hc
  simp [initState]

lemma downloadMultiple_goodState (c : Nat) (out : Nat → TaskOutcome)
    (pick : Nat → Nat) (urls : List String) :
    GoodState urls out (downloadMultiple c out pick urls) :=
  runLoop_goodState urls c out pick urls.length 0 (initState urls)
    (goodState_init urls out)

lemma downloadMultiple_keys (c : Nat) (hc : 1 ≤ c) (out : Nat → TaskOutcome)
    (pick : Nat → Nat) (urls : List String) :
    ((downloadMultiple c out pick urls).successful.map (·.1) ++
        (downloadMultiple c out pick urls).failed.map (·.1)).Perm
      (List.range urls.length) := by
  have hperm := runLoop_keys_perm c out pick urls.length 0 (initState urls)
  have hdrain := downloadMultiple_drained c hc out pick urls
  unfold downloadMultiple at hdrain ⊢
  rw [keysOf, keysOf, hdrain.1, hdrain.2] at hperm
  simp only [List.map_nil, List.nil_append, initState, List.map_nil,
    List.append_nil, List.enum_map_fst] at hperm
  exact hperm

/-- Any status other than 200/301/302 rejects at once: one GET, no
filesystem activity, the promise settles with `HTTP <status>`. -/
lemma downloadFile_http_error (resolveUrl : String → String → String)
    (env : Nat → NetBehavior) (retries : Nat) (url path : String) (oP : Bool)
    (fuel s : Nat) (loc : String) (cl : Option String) (chunks : List Nat)
    (ending : BodyEnd) (henv : env 0 = NetBehavior.resp s loc cl chunks ending)
    (h200 : s ≠ 200) (h301 : s ≠ 301) (h302 : s ≠ 302) :
    downloadFile resolveUrl env retries url path oP (fuel + 1)
      = (some (DLResult.failed ("HTTP " ++ toString s)), [Eff.httpGet url 1]) := by
  unfold downloadFile downloadFileRun
  rw [henv]
  dsimp only
  rw [if_neg (show ¬ (s = 301 ∨ s = 302) by simp [h301, h302])]
  rw [if_pos h200]

/-- One unfolding step: a connection error below the retry cap logs,
sleeps `1000 * attempt` and recurses with `attempt + 1`. -/
lemma downloadFileRun_connError (resolveUrl : String → String → String)
    (env : Nat → NetBehavior) (retries : Nat) (url path : String) (oP : Bool)
    (fuel cIdx a : Nat) (m : String)
    (henv : env cIdx = NetBehavior.connError m) (ha : a < retries) :
    downloadFileRun resolveUrl env retries url path oP (fuel + 1) cIdx a
      = ((downloadFileRun resolveUrl env retries url path oP fuel (cIdx + 1) (a + 1)).1,
        [Eff.httpGet url a, Eff.log (retryMsg a retries url), Eff.sleep (1000 * a)]
          ++ (downloadFileRun resolveUrl env retries url path oP fuel (cIdx + 1) (a + 1)).2) := by
  conv_lhs => rw [downloadFileRun]
  rw [henv]
  dsimp only
  rw [if_pos ha]

/-- One unfolding step: a pre-response timeout below the retry cap
destroys the request, logs, sleeps `1000 * attempt` and recurses with
`attempt + 1`. -/
lemma downloadFileRun_timedOut (resolveUrl : String → String → String)
    (env : Nat → NetBehavior) (retries : Nat) (url path : String) (oP : Bool)
    (fuel cIdx a : Nat)
    (henv : env cIdx = NetBehavior.timedOut) (ha : a < retries) :
    downloadFileRun resolveUrl env retries url path oP (fuel + 1) cIdx a
      = ((downloadFileRun resolveUrl env retries url path oP fuel (cIdx + 1) (a + 1)).1,
        [Eff.httpGet url a, Eff.destroyRequest, Eff.log (timeoutMsg a retries url),
            Eff.sleep (1000 * a)]
          ++ (downloadFileRun resolveUrl env retries url path oP fuel (cIdx + 1) (a + 1)).2) := by
  conv_lhs => rw [downloadFileRun]
  rw [henv]
  dsimp only
  rw [if_pos ha]

/-- One unfolding step: a mid-body timeout below the retry cap leaves the
written chunks behind, destroys the request, sleeps `1000 * attempt` and
recurses with `attempt + 1`. -/
lemma downloadFileRun_midBodyTimeout (resolveUrl : String → String → String)
    (env : Nat → NetBehavior) (retries : Nat) (url path : String) (oP : Bool)
    (fuel cIdx a : Nat) (loc : String) (cl : Option String) (chunks : List Nat)
    (henv : env cIdx = NetBehavior.resp 200 loc cl chunks BodyEnd.timedOut)
    (ha : a < retries) :
    downloadFileRun resolveUrl env retries url path oP (fuel + 1) cIdx a
      = ((downloadFileRun resolveUrl env retries url path oP fuel (cIdx + 1) (a + 1)).1,
        [Eff.httpGet url a, Eff.ensureDir (dirnameOf path), Eff.createFile path]
          ++ (streamChunks url (cl.bind parseIntJS) oP path (0, 0) chunks).2
          ++ [Eff.destroyRequest, Eff.log (timeoutMsg a retries url),
              Eff.sleep (1000 * a)]
          ++ (downloadFileRun resolveUrl env retries url path oP fuel (cIdx + 1) (a + 1)).2) := by
  conv_lhs => rw [downloadFileRun]
  rw [henv]
  dsimp only
  rw [if_neg (show ¬ ((200 : Nat) = 301 ∨ (200 : Nat) = 302) by simp)]
  rw [if_neg (show ¬ ((200 : Nat) ≠ 200) by simp)]
  rw [if_pos ha]

/-- One unfolding step: a 200 response whose body finishes resolves with
the total byte count. -/
lemma downloadFileRun_ok_finish (resolveUrl : String → String → String)
    (env : Nat → NetBehavior) (retries : Nat) (url path : String) (oP : Bool)
    (fuel cIdx a : Nat) (loc : String) (cl : Option String) (chunks : List Nat)
    (henv : env cIdx = NetBehavior.resp 200 loc cl chunks BodyEnd.finish) :
    downloadFileRun resolveUrl env retries url path oP (fuel + 1) cIdx a
      = (some (DLResult.success url path chunks.sum),
        [Eff.httpGet url a, Eff.ensureDir (dirnameOf path), Eff.createFile path]
          ++ (streamChunks url (cl.bind parseIntJS) oP path (0, 0) chunks).2
          ++ [Eff.closeStream]) := by
  conv_lhs => rw [downloadFileRun]
  rw [henv]
  dsimp only
  rw [if_neg (show ¬ ((200 : Nat) = 301 ∨ (200 : Nat) = 302) by simp)]
  rw [if_neg (show ¬ ((200 : Nat) ≠ 200) by simp)]
  rw [streamChunks_size url (cl.bind parseIntJS) oP path chunks (0, 0)]
  rw [Nat.zero_add]

/-!  ### Claim theorems  -/

/-- C1: for every finite sequence of N requested URLs and every
concurrency limit ≥ 1, when `downloadMultiple` completes (each admitted
task settling exactly once, modelled by the settlement oracle `out` and an
arbitrary `Promise.race` pick oracle), the returned result satisfies
`successful.length + failed.length = N`, and the input positions recorded
across the two sequences are exactly `0, …, N-1`, each exactly once, with
each entry carrying the URL at its input position — no request dropped,
none double-counted. -/
theorem C1_aggregate_totality :
    ∀ (c : Nat) (out : Nat → TaskOutcome) (pick : Nat → Nat) (urls : List String),
      1 ≤ c →
      (downloadMultiple c out pick urls).successful.length +
          (downloadMultiple c out pick urls).failed.length = urls.length ∧
      ((downloadMultiple c out pick urls).successful.map (·.1) ++
          (downloadMultiple c out pick urls).failed.map (·.1)).Perm
        (List.range urls.length) ∧
      (∀ e ∈ (downloadMultiple c out pick urls).successful,
          urls.get? e.1 = some e.2.1 ∧ out e.1 = TaskOutcome.success e.2.2) ∧
      (∀ e ∈ (downloadMultiple c out pick urls).failed,
          urls.get? e.1 = some e.2.1 ∧ out e.1 = TaskOutcome.failure e.2.2) := by
  intro c out pick urls hc
  have hkeys := downloadMultiple_keys c hc out pick urls
  have hgood := downloadMultiple_goodState c out pick urls
  refine ⟨?_, hkeys, hgood.2.2.1, hgood.2.2.2⟩
  have hlen := hkeys.length_eq
  simpa using hlen

/-- Witness for C1 at a concrete instance: three URLs, concurrency 2. -/
theorem C1_aggregate_totality_witness :
    (downloadMultiple 2 outW pickW urlsW).successful.length +
        (downloadMultiple 2 outW pickW urlsW).failed.length = urlsW.length ∧
    ((downloadMultiple 2 outW pickW urlsW).successful.map (·.1) ++
        (downloadMultiple 2 outW pickW urlsW).failed.map (·.1)).Perm
      (List.range urlsW.length) ∧
    (∀ e ∈ (downloadMultiple 2 outW pickW urlsW).successful,
        urlsW.get? e.1 = some e.2.1 ∧ outW e.1 = TaskOutcome.success e.2.2) ∧
    (∀ e ∈ (downloadMultiple 2 outW pickW urlsW).failed,
        urlsW.get? e.1 = some e.2.1 ∧ outW e.1 = TaskOutcome.failure e.2.2) :=
  C1_aggregate_totality 2 outW pickW urlsW (by decide)

/-- C2: at every suspension point of `downloadMultiple` (after filling
free slots, where the loop awaits `Promise.race`) the active set holds at
most `c` tasks, and whenever the pending queue is still non-empty the pool
has been filled to exactly `c` before suspending; admission is FIFO in
input order — the fill step removes a whole prefix of the pending queue
and appends it, in order, to the active set. -/
theorem C2_concurrency_bound_and_fifo :
    ∀ (c : Nat) (out : Nat → TaskOutcome) (pick : Nat → Nat) (urls : List String)
      (fuel : Nat), 1 ≤ c →
      (∀ s ∈ runTrace c out pick fuel 0 (initState urls),
          s.active.length ≤ c ∧ (s.pending ≠ [] → s.active.length = c)) ∧
      (∀ st : SchedState, ∃ k, fill c st =
          { pending := st.pending.drop k,
            active := st.active ++ st.pending.take k,
            successful := st.successful,
            failed := st.failed }) := by
  intro c out pick urls fuel _
  constructor
  · exact runTrace_bound c out pick fuel 0 (initState urls) (by simp [initState])
  · intro st
    obtain ⟨k, hk⟩ := fillAux_spec c st.pending st.active
    refine ⟨k, ?_⟩
    unfold fill
    rw [hk]

/-- Witness for C2 at a concrete instance: three URLs, concurrency 2,
three loop iterations. -/
theorem C2_concurrency_bound_and_fifo_witness :
    (∀ s ∈ runTrace 2 outW pickW 3 0 (initState urlsW),
        s.active.length ≤ 2 ∧ (s.pending ≠ [] → s.active.length = 2)) ∧
    (∀ st : SchedState, ∃ k, fill 2 st =
        { pending := st.pending.drop k,
          active := st.active ++ st.pending.take k,
          successful := st.successful,
          failed := st.failed }) :=
  C2_concurrency_bound_and_fifo 2 outW pickW urlsW 3 (by decide)

/-- C3 (code bug): on a 301 response the code resolves the `Location`
header against the current URL and logs `Redirecting to: <resolved>`, and
it does not increment the attempt counter — but the re-issued GET goes to
the *original* URL, not the resolved redirect target (`redirectUrl` is
computed and never used).  Here the server answers the first GET on
`http://example.com/old` with `301 Location: /new`; both GETs in the trace
target `http://example.com/old` at attempt 1, and no GET ever targets the
resolved `http://example.com/new` even though it was logged. -/
theorem C3_redirect_requests_original_url :
    getsOf (downloadFile resolveSample redirectEnv 3
        "http://example.com/old" "out/f" false 5).2
      = [("http://example.com/old", 1), ("http://example.com/old", 1)] ∧
    Eff.log "Redirecting to: http://example.com/new"
      ∈ (downloadFile resolveSample redirectEnv 3
          "http://example.com/old" "out/f" false 5).2 ∧
    (∀ g ∈ getsOf (downloadFile resolveSample redirectEnv 3
        "http://example.com/old" "out/f" false 5).2,
      g.1 ≠ "http://example.com/new") := by
  refine ⟨?_, ?_, ?_⟩ <;> decide

/-- C4 counterexample: a transfer that has written 50 of 100 bytes and
then hits the socket timeout (a stream error path the claim covers, cited
at the timeout handler) propagates `Request timeout` — yet the partially
written destination file is never deleted: `unlink` is absent from the
trace and the file still exists afterwards. -/
theorem C4_timeout_leaves_partial_file :
    (downloadFile resolveSample timeoutEnv 3 "http://e/x" "out/f.bin" false 3).1
        = some (DLResult.failed "Request timeout") ∧
    Eff.write "out/f.bin" 50
        ∈ (downloadFile resolveSample timeoutEnv 3 "http://e/x" "out/f.bin" false 3).2 ∧
    fileExistsAfter "out/f.bin"
        (downloadFile resolveSample timeoutEnv 3 "http://e/x" "out/f.bin" false 3).2
      = true ∧
    Eff.unlink "out/f.bin"
        ∉ (downloadFile resolveSample timeoutEnv 3 "http://e/x" "out/f.bin" false 3).2 := by
  refine ⟨?_, ?_, ?_, ?_⟩ <;> decide

/-- C4 (amended): only an error raised by the destination write stream
triggers cleanup: when the write stream errors after writing has begun,
the partial file is deleted (`unlink`) before the error propagates and no
file remains at the destination; a timeout after writing has begun does
not delete the partial file (see the counterexample). -/
theorem C4_write_error_deletes_partial_file :
    ∀ (resolveUrl : String → String → String) (env : Nat → NetBehavior)
      (retries : Nat) (url path : String) (oP : Bool) (fuel : Nat)
      (loc : String) (cl : Option String) (chunks : List Nat) (msg : String),
      env 0 = NetBehavior.resp 200 loc cl chunks (BodyEnd.writeError msg) →
      (downloadFile resolveUrl env retries url path oP (fuel + 1)).1
          = some (DLResult.failed msg) ∧
      Eff.unlink path ∈ (downloadFile resolveUrl env retries url path oP (fuel + 1)).2 ∧
      fileExistsAfter path
          (downloadFile resolveUrl env retries url path oP (fuel + 1)).2 = false := by
  intro resolveUrl env retries url path oP fuel loc cl chunks msg henv
  unfold downloadFile downloadFileRun
  rw [henv]
  dsimp only
  rw [if_neg (show ¬ ((200 : Nat) = 301 ∨ (200 : Nat) = 302) by simp)]
  rw [if_neg (show ¬ ((200 : Nat) ≠ 200) by simp)]
  refine ⟨rfl, ?_, ?_⟩
  · simp
  · rw [fileExistsAfter_eq_foldl]
    simp only [List.foldl_append, List.foldl_cons, List.foldl_nil]
    rw [foldl_fsFold_streamChunks]
    simp [fsFold]

/-- Witness for the amended C4: write stream fails after 50 of 100 bytes;
the file is unlinked and gone. -/
theorem C4_write_error_deletes_partial_file_witness :
    (downloadFile resolveSample writeErrorEnv 3 "http://e/x" "out/f.bin" false 1).1
        = some (DLResult.failed "ENOSPC") ∧
    Eff.unlink "out/f.bin"
        ∈ (downloadFile resolveSample writeErrorEnv 3 "http://e/x" "out/f.bin" false 1).2 ∧
    fileExistsAfter "out/f.bin"
        (downloadFile resolveSample writeErrorEnv 3 "http://e/x" "out/f.bin" false 1).2
      = false :=
  C4_write_error_deletes_partial_file resolveSample writeErrorEnv 3 "http://e/x"
    "out/f.bin" false 0 "" (some "100") [50] "ENOSPC" rfl

/-- C5: a response with any status other than 200/301/302 (e.g. 404)
settles the task as a terminal failure `HTTP <status>` at once — the trace
holds exactly one GET, so zero further retry attempts are made — and in
the scheduler any task whose promise rejects is recorded in the `failed`
sequence at its input position. -/
theorem C5_http_error_terminal_no_retry :
    (∀ (resolveUrl : String → String → String) (env : Nat → NetBehavior)
        (retries : Nat) (url path : String) (oP : Bool) (fuel s : Nat)
        (loc : String) (cl : Option String) (chunks : List Nat) (ending : BodyEnd),
        env 0 = NetBehavior.resp s loc cl chunks ending →
        s ≠ 200 → s ≠ 301 → s ≠ 302 →
        (downloadFile resolveUrl env retries url path oP (fuel + 1)).1
            = some (DLResult.failed ("HTTP " ++ toString s)) ∧
        getsOf (downloadFile resolveUrl env retries url path oP (fuel + 1)).2
            = [(url, 1)]) ∧
    (∀ (c : Nat) (out : Nat → TaskOutcome) (pick : Nat → Nat)
        (urls : List String) (i : Nat) (m : String), 1 ≤ c →
        i < urls.length → out i = TaskOutcome.failure m →
        ∃ u, urls.get? i = some u ∧
          (i, u, m) ∈ (downloadMultiple c out pick urls).failed) := by
  constructor
  · intro resolveUrl env retries url path oP fuel s loc cl chunks ending
      henv h200 h301 h302
    rw [downloadFile_http_error resolveUrl env retries url path oP fuel s loc cl
      chunks ending henv h200 h301 h302]
    exact ⟨rfl, rfl⟩
  · intro c out pick urls i m hc hi hout
    have hgood := downloadMultiple_goodState c out pick urls
    have hkeys := downloadMultiple_keys c hc out pick urls
    have hmem : i ∈ ((downloadMultiple c out pick urls).successful.map (·.1) ++
        (downloadMultiple c out pick urls).failed.map (·.1)) :=
      hkeys.mem_iff.mpr (List.mem_range.mpr hi)
    rcases List.mem_append.mp hmem with h | h
    · obtain ⟨e, he, hei⟩ := List.mem_map.mp h
      have hse := (hgood.2.2.1 e he).2
      rw [hei, hout] at hse
      cases hse
    · obtain ⟨e, he, hei⟩ := List.mem_map.mp h
      obtain ⟨e1, e2, e3⟩ := e
      simp only at hei
      have h1 : e1 = i := hei
      subst h1
      have hfe := hgood.2.2.2 (e1, e2, e3) he
      have hinj : TaskOutcome.failure m = TaskOutcome.failure e3 :=
        hout.symm.trans hfe.2
      have he3 : e3 = m := by
        injection hinj with h'
        exact h'.symm
      subst he3
      exact ⟨e2, hfe.1, he⟩

/-- Witness for C5: a 404 answer and, in the scheduler, input 1 whose
task rejects with `HTTP 404`. -/
theorem C5_http_error_terminal_no_retry_witness :
    ((downloadFile resolveSample notFoundEnv 3 "http://a/x" "d/f" true 1).1
        = some (DLResult.failed ("HTTP " ++ toString 404)) ∧
      getsOf (downloadFile resolveSample notFoundEnv 3 "http://a/x" "d/f" true 1).2
        = [("http://a/x", 1)]) ∧
    (∃ u, urlsW.get? 1 = some u ∧
      (1, u, "HTTP 404") ∈ (downloadMultiple 2 outW pickW urlsW).failed) :=
  ⟨C5_http_error_terminal_no_retry.1 resolveSample notFoundEnv 3 "http://a/x"
      "d/f" true 0 404 "" none [] BodyEnd.finish rfl
      (by decide) (by decide) (by decide),
    C5_http_error_terminal_no_retry.2 2 outW pickW urlsW 1 "HTTP 404"
      (by decide) (by decide) (by decide)⟩

/-- C10: when the status is neither 200 nor a redirect, `downloadFile`
rejects before touching the filesystem: the attempt's trace contains no
directory creation, no file creation, no write and no deletion — the
destination is untouched on that error path. -/
theorem C10_error_status_touches_no_filesystem :
    ∀ (resolveUrl : String → String → String) (env : Nat → NetBehavior)
      (retries : Nat) (url path : String) (oP : Bool) (fuel s : Nat)
      (loc : String) (cl : Option String) (chunks : List Nat) (ending : BodyEnd),
      env 0 = NetBehavior.resp s loc cl chunks ending →
      s ≠ 200 → s ≠ 301 → s ≠ 302 →
      fsEffectsOf (downloadFile resolveUrl env retries url path oP (fuel + 1)).2 = [] ∧
      fileExistsAfter path
          (downloadFile resolveUrl env retries url path oP (fuel + 1)).2 = false ∧
      (downloadFile resolveUrl env retries url path oP (fuel + 1)).1
          = some (DLResult.failed ("HTTP " ++ toString s)) := by
  intro resolveUrl env retries url path oP fuel s loc cl chunks ending
    henv h200 h301 h302
  rw [downloadFile_http_error resolveUrl env retries url path oP fuel s loc cl
    chunks ending henv h200 h301 h302]
  exact ⟨rfl, rfl, rfl⟩

/-- Witness for C10: a 404 answer creates nothing on disk. -/
theorem C10_error_status_touches_no_filesystem_witness :
    fsEffectsOf (downloadFile resolveSample notFoundEnv 3 "http://a/x" "d/f" true 1).2 = [] ∧
    fileExistsAfter "d/f"
        (downloadFile resolveSample notFoundEnv 3 "http://a/x" "d/f" true 1).2 = false ∧
    (downloadFile resolveSample notFoundEnv 3 "http://a/x" "d/f" true 1).1
        = some (DLResult.failed ("HTTP " ++ toString 404)) :=
  C10_error_status_touches_no_filesystem resolveSample notFoundEnv 3 "http://a/x"
    "d/f" true 0 404 "" none [] BodyEnd.finish rfl (by decide) (by decide) (by decide)

/-- C6: with `maxRetries = 3`, a task whose first two attempts fail with
connection errors and whose third attempt succeeds ends with a fulfilled
promise carrying the full byte count (so the scheduler records it in
`successful`, never `failed`); and in general a retriable error
(connection error or timeout) with the attempt count below `maxRetries`
is contained inside the task: the settlement is exactly the settlement of
the next attempt, not a terminal failure. -/
theorem C6_retriable_errors_contained :
    (∀ (resolveUrl : String → String → String) (m1 m2 url path loc : String)
        (cl : Option String) (chunks : List Nat) (oP : Bool),
        (downloadFileRun resolveUrl
            (fun k => if k = 0 then NetBehavior.connError m1
              else if k = 1 then NetBehavior.connError m2
              else NetBehavior.resp 200 loc cl chunks BodyEnd.finish)
            3 url path oP 3 0 1).1
          = some (DLResult.success url path chunks.sum)) ∧
    (∀ (resolveUrl : String → String → String) (env : Nat → NetBehavior)
        (retries : Nat) (url path : String) (oP : Bool) (fuel cIdx a : Nat)
        (m : String), a < retries →
        (env cIdx = NetBehavior.connError m ∨ env cIdx = NetBehavior.timedOut) →
        (downloadFileRun resolveUrl env retries url path oP (fuel + 1) cIdx a).1
          = (downloadFileRun resolveUrl env retries url path oP fuel (cIdx + 1) (a + 1)).1) := by
  constructor
  · intro resolveUrl m1 m2 url path loc cl chunks oP
    rw [show (3 : Nat) = 2 + 1 from rfl,
      downloadFileRun_connError resolveUrl _ 3 url path oP 2 0 1 m1 rfl (by norm_num)]
    rw [show (2 : Nat) = 1 + 1 from rfl,
      downloadFileRun_connError resolveUrl _ 3 url path oP 1 (0 + 1) (1 + 1) m2 rfl
        (by norm_num)]
    rw [show (1 : Nat) = 0 + 1 from rfl,
      downloadFileRun_ok_finish resolveUrl _ 3 url path oP 0 (0 + 1 + 1) (1 + 1 + 1)
        loc cl chunks rfl]
  · intro resolveUrl env retries url path oP fuel cIdx a m ha henv
    rcases henv with henv | henv
    · rw [downloadFileRun_connError resolveUrl env retries url path oP fuel cIdx a m
        henv ha]
    · rw [downloadFileRun_timedOut resolveUrl env retries url path oP fuel cIdx a
        henv ha]

/-- Witness for C6: the flaky server (two connection errors, then a
7-byte body) yields a fulfilled promise of 7 bytes; and a concrete
contained first attempt. -/
theorem C6_retriable_errors_contained_witness :
    (downloadFileRun resolveSample
        (fun k => if k = 0 then NetBehavior.connError "ECONNRESET"
          else if k = 1 then NetBehavior.connError "ECONNRESET"
          else NetBehavior.resp 200 "" (some "7") [3, 4] BodyEnd.finish)
        3 "http://a/x" "d/f" true 3 0 1).1
      = some (DLResult.success "http://a/x" "d/f" ([3, 4] : List Nat).sum) ∧
    (downloadFileRun resolveSample connErrorEnv 3 "http://a/x" "d/f" true (2 + 1) 0 1).1
      = (downloadFileRun resolveSample connErrorEnv 3 "http://a/x" "d/f" true 2 (0 + 1) (1 + 1)).1 :=
  ⟨C6_retriable_errors_contained.1 resolveSample "ECONNRESET" "ECONNRESET"
      "http://a/x" "d/f" "" (some "7") [3, 4] true,
    C6_retriable_errors_contained.2 resolveSample connErrorEnv 3 "http://a/x" "d/f"
      true 2 0 1 "ECONNREFUSED" (by decide) (Or.inl rfl)⟩

/-- C7: every retriable failure (connection error, pre-response timeout,
or mid-body timeout) at attempt `n < maxRetries` schedules a backoff sleep
of exactly `n × 1000` ms (the code's `1000 * attempt` — linear, not
exponential) before the next attempt's GET; concretely, a task failing on
attempts 1 and 2 sleeps 1000 then 2000 ms. -/
theorem C7_linear_backoff :
    (∀ (resolveUrl : String → String → String) (env : Nat → NetBehavior)
        (retries : Nat) (url path : String) (oP : Bool) (fuel cIdx a : Nat)
        (m : String), env cIdx = NetBehavior.connError m → a < retries →
        (downloadFileRun resolveUrl env retries url path oP (fuel + 1) cIdx a).2
          = [Eff.httpGet url a, Eff.log (retryMsg a retries url), Eff.sleep (1000 * a)]
            ++ (downloadFileRun resolveUrl env retries url path oP fuel (cIdx + 1) (a + 1)).2) ∧
    (∀ (resolveUrl : String → String → String) (env : Nat → NetBehavior)
        (retries : Nat) (url path : String) (oP : Bool) (fuel cIdx a : Nat),
        env cIdx = NetBehavior.timedOut → a < retries →
        (downloadFileRun resolveUrl env retries url path oP (fuel + 1) cIdx a).2
          = [Eff.httpGet url a, Eff.destroyRequest, Eff.log (timeoutMsg a retries url),
              Eff.sleep (1000 * a)]
            ++ (downloadFileRun resolveUrl env retries url path oP fuel (cIdx + 1) (a + 1)).2) ∧
    (∀ (resolveUrl : String → String → String) (env : Nat → NetBehavior)
        (retries : Nat) (url path : String) (oP : Bool) (fuel cIdx a : Nat)
        (loc : String) (cl : Option String) (chunks : List Nat),
        env cIdx = NetBehavior.resp 200 loc cl chunks BodyEnd.timedOut → a < retries →
        (downloadFileRun resolveUrl env retries url path oP (fuel + 1) cIdx a).2
          = [Eff.httpGet url a, Eff.ensureDir (dirnameOf path), Eff.createFile path]
            ++ (streamChunks url (cl.bind parseIntJS) oP path (0, 0) chunks).2
            ++ [Eff.destroyRequest, Eff.log (timeoutMsg a retries url),
                Eff.sleep (1000 * a)]
            ++ (downloadFileRun resolveUrl env retries url path oP fuel (cIdx + 1) (a + 1)).2) ∧
    sleepsOf (downloadFileRun resolveSample connErrorEnv 3 "http://a/x" "d/f"
        false 3 0 1).2 = [1000 * 1, 1000 * 2] := by
  refine ⟨?_, ?_, ?_, by decide⟩
  · intro resolveUrl env retries url path oP fuel cIdx a m henv ha
    rw [downloadFileRun_connError resolveUrl env retries url path oP fuel cIdx a m
      henv ha]
  · intro resolveUrl env retries url path oP fuel cIdx a henv ha
    rw [downloadFileRun_timedOut resolveUrl env retries url path oP fuel cIdx a
      henv ha]
  · intro resolveUrl env retries url path oP fuel cIdx a loc cl chunks henv ha
    rw [downloadFileRun_midBodyTimeout resolveUrl env retries url path oP fuel cIdx a
      loc cl chunks henv ha]

/-- Witness for C7: concrete connection-error, timeout and mid-body
timeout steps each sleeping `1000 × attempt`. -/
theorem C7_linear_backoff_witness :
    (downloadFileRun resolveSample connErrorEnv 3 "http://a/x" "d/f" false (2 + 1) 0 1).2
        = [Eff.httpGet "http://a/x" 1, Eff.log (retryMsg 1 3 "http://a/x"),
            Eff.sleep (1000 * 1)]
          ++ (downloadFileRun resolveSample connErrorEnv 3 "http://a/x" "d/f" false 2
              (0 + 1) (1 + 1)).2 ∧
    (downloadFileRun resolveSample (fun _ => NetBehavior.timedOut) 3 "http://a/x" "d/f"
        false (2 + 1) 0 1).2
        = [Eff.httpGet "http://a/x" 1, Eff.destroyRequest,
            Eff.log (timeoutMsg 1 3 "http://a/x"), Eff.sleep (1000 * 1)]
          ++ (downloadFileRun resolveSample (fun _ => NetBehavior.timedOut) 3
              "http://a/x" "d/f" false 2 (0 + 1) (1 + 1)).2 ∧
    (downloadFileRun resolveSample timeoutEnv 3 "http://e/x" "out/f.bin" false (2 + 1) 0 1).2
        = [Eff.httpGet "http://e/x" 1, Eff.ensureDir (dirnameOf "out/f.bin"),
            Eff.createFile "out/f.bin"]
          ++ (streamChunks "http://e/x" ((some "100").bind parseIntJS) false "out/f.bin"
              (0, 0) [50]).2
          ++ [Eff.destroyRequest, Eff.log (timeoutMsg 1 3 "http://e/x"),
              Eff.sleep (1000 * 1)]
          ++ (downloadFileRun resolveSample timeoutEnv 3 "http://e/x" "out/f.bin" false 2
              (0 + 1) (1 + 1)).2 :=
  ⟨C7_linear_backoff.1 resolveSample connErrorEnv 3 "http://a/x" "d/f" false 2 0 1
      "ECONNREFUSED" rfl (by decide),
    C7_linear_backoff.2.1 resolveSample (fun _ => NetBehavior.timedOut) 3 "http://a/x"
      "d/f" false 2 0 1 rfl (by decide),
    C7_linear_backoff.2.2.1 resolveSample timeoutEnv 3 "http://e/x" "out/f.bin" false 2
      0 1 "" (some "100") [50] rfl (by decide)⟩

/-- C8: streaming a body whose known total length is positive and
accurate (the chunks sum to it) with a progress callback installed, the
emitted events obey the throttle — each event either advances the exact
percentage by at least 5 points over the previous emission (the baseline
being 0 before any emission) or is a 100% event — and the stream always
ends with a final event at exactly 100% (downloadedSize = total, rounded
percentage 100), regardless of chunk granularity; the transfer resolves
with the full byte count. -/
theorem C8_progress_throttled_final_100 :
    ∀ (resolveUrl : String → String → String) (env : Nat → NetBehavior)
      (retries : Nat) (url path loc : String) (cl : Option String)
      (chunks : List Nat) (tN fuel : Nat),
      env 0 = NetBehavior.resp 200 loc cl chunks BodyEnd.finish →
      cl.bind parseIntJS = some ((tN : Nat) : Int) →
      0 < tN → chunks.sum = tN →
      (downloadFile resolveUrl env retries url path true (fuel + 1)).1
          = some (DLResult.success url path tN) ∧
      (progressEventsOf
          (downloadFile resolveUrl env retries url path true (fuel + 1)).2).getLast?
          = some ⟨url, tN, (tN : Int), 100⟩ ∧
      List.Chain' (fun e1 e2 => 5 ≤ pctE e2 - pctE e1 ∨ pctE e2 = 100)
        (progressEventsOf
          (downloadFile resolveUrl env retries url path true (fuel + 1)).2) ∧
      (∀ e, (progressEventsOf
            (downloadFile resolveUrl env retries url path true (fuel + 1)).2).head?
              = some e →
          5 ≤ pctE e - 0 ∨ pctE e = 100) := by
  intro resolveUrl env retries url path loc cl chunks tN fuel henv hcl htN hsum
  have hrun := downloadFileRun_ok_finish resolveUrl env retries url path true fuel 0 1
    loc cl chunks henv
  unfold downloadFile
  rw [hrun]
  have hevents : progressEventsOf
      ([Eff.httpGet url 1, Eff.ensureDir (dirnameOf path), Eff.createFile path]
        ++ (streamChunks url (cl.bind parseIntJS) true path (0, 0) chunks).2
        ++ [Eff.closeStream])
      = progressEventsOf
          (streamChunks url (cl.bind parseIntJS) true path (0, 0) chunks).2 := by
    simp [progressEventsOf_append, progressEventsOf]
  rw [hevents, hcl, hsum]
  have hchunksne : chunks ≠ [] := by
    intro hcon
    rw [hcon] at hsum
    simp at hsum
    omega
  have htZ : ((tN : Nat) : Int) ≠ 0 := by exact_mod_cast htN.ne'
  refine ⟨rfl, ?_, ?_, ?_⟩
  · exact streamChunks_last_event url path tN htN chunks 0 0 hchunksne (by omega)
  · exact (streamChunks_chain url path ((tN : Nat) : Int) htZ chunks 0 0).1
  · intro e he
    simpa using (streamChunks_chain url path ((tN : Nat) : Int) htZ chunks 0 0).2 e he

/-- Witness for C8: a 10-byte body in chunks 3/3/4 with
`content-length: 10`. -/
theorem C8_progress_throttled_final_100_witness :
    (downloadFile resolveSample chunkedEnv 3 "http://a/x" "d/f" true 1).1
        = some (DLResult.success "http://a/x" "d/f" 10) ∧
    (progressEventsOf
        (downloadFile resolveSample chunkedEnv 3 "http://a/x" "d/f" true 1).2).getLast?
        = some ⟨"http://a/x", 10, ((10 : Nat) : Int), 100⟩ ∧
    List.Chain' (fun e1 e2 => 5 ≤ pctE e2 - pctE e1 ∨ pctE e2 = 100)
      (progressEventsOf
        (downloadFile resolveSample chunkedEnv 3 "http://a/x" "d/f" true 1).2) ∧
    (∀ e, (progressEventsOf
          (downloadFile resolveSample chunkedEnv 3 "http://a/x" "d/f" true 1).2).head?
            = some e →
        5 ≤ pctE e - 0 ∨ pctE e = 100) :=
  C8_progress_throttled_final_100 resolveSample chunkedEnv 3 "http://a/x" "d/f" ""
    (some "10") [3, 3, 4] 10 0 rfl (by decide) (by decide) (by decide)

/-- C9: when the `content-length` header is absent or does not parse to a
positive value (`parseInt` yields `NaN`, zero, or a negative number), the
progress callback is never invoked — no progress event appears in the
trace, not even at completion — while the download still resolves
successfully with the observed byte count. -/
theorem C9_no_content_length_no_progress :
    ∀ (resolveUrl : String → String → String) (env : Nat → NetBehavior)
      (retries : Nat) (url path : String) (oP : Bool) (fuel : Nat)
      (loc : String) (cl : Option String) (chunks : List Nat),
      env 0 = NetBehavior.resp 200 loc cl chunks BodyEnd.finish →
      (cl.bind parseIntJS = none ∨ ∃ t, cl.bind parseIntJS = some t ∧ t ≤ 0) →
      (downloadFile resolveUrl env retries url path oP (fuel + 1)).1
          = some (DLResult.success url path chunks.sum) ∧
      progressEventsOf
          (downloadFile resolveUrl env retries url path oP (fuel + 1)).2 = [] := by
  intro resolveUrl env retries url path oP fuel loc cl chunks henv hts
  have hrun := downloadFileRun_ok_finish resolveUrl env retries url path oP fuel 0 1
    loc cl chunks henv
  unfold downloadFile
  rw [hrun]
  refine ⟨rfl, ?_⟩
  have hevents : progressEventsOf
      ([Eff.httpGet url 1, Eff.ensureDir (dirnameOf path), Eff.createFile path]
        ++ (streamChunks url (cl.bind parseIntJS) oP path (0, 0) chunks).2
        ++ [Eff.closeStream])
      = progressEventsOf
          (streamChunks url (cl.bind parseIntJS) oP path (0, 0) chunks).2 := by
    simp [progressEventsOf_append, progressEventsOf]
  rw [hevents]
  exact (streamChunks_no_events_of_nonpos url (cl.bind parseIntJS) oP path hts chunks 0).1

/-- Witness for C9: `content-length: abc` parses to `NaN`; a 7-byte body
still downloads successfully with zero progress events. -/
theorem C9_no_content_length_no_progress_witness :
    (downloadFile resolveSample noLengthEnv 3 "http://a/x" "d/f" true 1).1
        = some (DLResult.success "http://a/x" "d/f" ([3, 4] : List Nat).sum) ∧
    progressEventsOf
        (downloadFile resolveSample noLengthEnv 3 "http://a/x" "d/f" true 1).2 = [] :=
  C9_no_content_length_no_progress resolveSample noLengthEnv 3 "http://a/x" "d/f"
    true 0 "" (some "abc") [3, 4] rfl (Or.inl (by decide))

end Downloader
